import Mathlib

/-!
Verification development for the taya-backend transcription pipeline.

The Python sources are shallowly embedded: strings are `List Char`,
Python string methods (`strip`, `split`, `lower`, substring `in`) are
modelled over ASCII, dictionaries become structures, and exceptions
become `Option`/explicit outcome types.
-/

namespace Taya

/-- ASCII whitespace as recognized by Python `str.strip()` and `str.split()`. -/
def pyIsSpace (c : Char) : Bool :=
  c = ' ' || c = '\t' || c = '\n' || c = '\r' || c = '\x0b' || c = '\x0c'

/-- Python `s.strip()`: remove leading and trailing whitespace. -/
def pyStrip (s : List Char) : List Char :=
  ((s.dropWhile pyIsSpace).reverse.dropWhile pyIsSpace).reverse

/-- Helper for Python `s.split()`: accumulate the current word (reversed). -/
def pySplitAux : List Char → List Char → List (List Char)
  | [], acc => if acc.isEmpty then [] else [acc.reverse]
  | c :: rest, acc =>
    if pyIsSpace c then
      if acc.isEmpty then pySplitAux rest [] else acc.reverse :: pySplitAux rest []
    else
      pySplitAux rest (c :: acc)

/-- Python `s.split()` with no argument: split on whitespace runs, dropping empties. -/
def pySplit (s : List Char) : List (List Char) :=
  pySplitAux s []

/-- Lowercase one character, ASCII range (Python `str.lower()` on ASCII text). -/
def pyLowerChar (c : Char) : Char :=
  if 'A' ≤ c ∧ c ≤ 'Z' then Char.ofNat (c.toNat + 32) else c

/-- Python `s.lower()` (ASCII model). -/
def pyLower (s : List Char) : List Char :=
  s.map pyLowerChar

/-- Does `hay` start with `needle`? -/
def startsWithSeq : List Char → List Char → Bool
  | [], _ => true
  | _ :: _, [] => false
  | a :: as, b :: bs => a = b && startsWithSeq as bs

/-- Python substring containment `needle in hay`. -/
def pyContains (needle : List Char) : List Char → Bool
  | [] => needle.isEmpty
  | c :: rest => startsWithSeq needle (c :: rest) || pyContains needle rest

/-- Denylist of placeholder/test phrases from should_discard_conversation
    (standalone_ai.py line 43). -/
def test_phrases : List (List Char) :=
  ["test".data, "testing".data, "hello world".data, "mock".data, "sample".data]

/-- Embedding of should_discard_conversation (standalone_ai.py lines 31-48):
    discard when the input is empty or its trimmed length is below 10, when
    the whitespace-split word count is below 3, or when the lowercased text
    contains any denylisted phrase as a substring. -/
def should_discard_conversation (transcript : List Char) : Bool :=
  if transcript.isEmpty ∨ (pyStrip transcript).length < 10 then true
  else if (pySplit transcript).length < 3 then true
  else if test_phrases.any (fun phrase => pyContains phrase (pyLower transcript)) then true
  else false

/-- C1: the Discard Classifier returns true exactly when one of its three rules
    fires — trimmed length under 10 characters, fewer than 3 whitespace-split
    words, or a denylisted phrase occurring in the lowercased transcript — and
    otherwise returns false; in particular it keeps
    "We agreed to ship the report by Friday" and discards "hi" and
    "this is just a test". -/
theorem discard_classifier_rules :
    (∀ s : List Char,
      should_discard_conversation s = true ↔
        ((pyStrip s).length < 10 ∨ (pySplit s).length < 3 ∨
          ∃ phrase ∈ test_phrases, pyContains phrase (pyLower s) = true))
    ∧ should_discard_conversation "We agreed to ship the report by Friday".data = false
    ∧ should_discard_conversation "hi".data = true
    ∧ should_discard_conversation "this is just a test".data = true := by
  refine ⟨fun s => ?_, by decide, by decide, by decide⟩
  unfold should_discard_conversation
  split_ifs with h1 h2 h3
  · simp only [true_iff]
    rcases h1 with h1 | h1
    · left
      have : s = [] := by
        cases s with
        | nil => rfl
        | cons c cs => simp [List.isEmpty] at h1
      subst this
      decide
    · exact Or.inl h1
  · simp only [true_iff]
    exact Or.inr (Or.inl h2)
  · simp only [true_iff]
    rcases List.any_eq_true.mp h3 with ⟨phrase, hmem, hsub⟩
    exact Or.inr (Or.inr ⟨phrase, hmem, hsub⟩)
  · simp only [Bool.false_eq_true, false_iff]
    push_neg at h1
    rintro (h | h | ⟨phrase, hmem, hsub⟩)
    · exact absurd h (Nat.not_lt.mpr h1.2)
    · exact h2 h
    · exact h3 (List.any_eq_true.mpr ⟨phrase, hmem, hsub⟩)

/-- C9: denylist matching is substring-based: any transcript with trimmed
    length at least 10 and at least 3 words that contains a denylisted phrase
    anywhere inside its lowercased text (even inside a longer word) is
    discarded. -/
theorem discard_denylist_substring (s : List Char)
    (h10 : 10 ≤ (pyStrip s).length) (h3 : 3 ≤ (pySplit s).length)
    (phrase : List Char) (hmem : phrase ∈ test_phrases)
    (hsub : pyContains phrase (pyLower s) = true) :
    should_discard_conversation s = true := by
  unfold should_discard_conversation
  have hne : ¬ (s.isEmpty ∨ (pyStrip s).length < 10) := by
    rintro (h | h)
    · have : s = [] := by
        cases s with
        | nil => rfl
        | cons c cs => simp [List.isEmpty] at h
      subst this
      simp [pyStrip] at h10
    · omega
  rw [if_neg hne, if_neg (by omega)]
  rw [if_pos (List.any_eq_true.mpr ⟨phrase, hmem, hsub⟩)]

/-- C9 witness: "the latest news arrived" has 23 trimmed characters, 4 words,
    no denylisted word on its own — yet "test" occurs inside "latest", so the
    transcript is discarded. -/
theorem discard_denylist_substring_witness :
    10 ≤ (pyStrip "the latest news arrived".data).length
    ∧ 3 ≤ (pySplit "the latest news arrived".data).length
    ∧ "test".data ∈ test_phrases
    ∧ pyContains "test".data (pyLower "the latest news arrived".data) = true
    ∧ should_discard_conversation "the latest news arrived".data = true :=
  ⟨by decide, by decide, by decide, by decide,
   discard_denylist_substring "the latest news arrived".data (by decide) (by decide)
     "test".data (by decide) (by decide)⟩

/-! Segment assembly — the word-level fallback of the batch transcription
    endpoint transcribe_audio (app_noauth.py lines 397-418). Word timestamps
    and confidences are floats in the source; they are carried verbatim
    (never computed with), modelled as rationals. -/

/-- One word from the speech backend (fields of the word objects read by the
    fallback loop; the source defaults speaker to 0 and confidence to 0.95
    when the backend omits them — here the defaults are already applied). -/
structure Word where
  punctuated_word : List Char
  speaker : Nat
  start : ℚ
  stop : ℚ
  confidence : ℚ
deriving DecidableEq

/-- One assembled transcript segment dict (the source field end is named
    stop here, and the derived SPEAKER_ label string is kept). -/
@[ext]
structure Segment where
  text : List Char
  speaker : List Char
  speaker_id : Nat
  start : ℚ
  stop : ℚ
  confidence : ℚ
deriving DecidableEq

/-- The f-string SPEAKER_{speaker_id}. -/
def spkLabel (n : Nat) : List Char :=
  "SPEAKER_".data ++ (Nat.repr n).data

/-- Seeding a new current_segment from one word (app_noauth.py lines 403-410). -/
def segFromWord (w : Word) : Segment :=
  { text := w.punctuated_word
    speaker := spkLabel w.speaker
    speaker_id := w.speaker
    start := w.start
    stop := w.stop
    confidence := w.confidence }

/-- Extending the open segment with one word: append a space and the word
    text, move the end time (app_noauth.py lines 412-413). -/
def extendSeg (cur : Segment) (w : Word) : Segment :=
  { cur with text := cur.text ++ ' ' :: w.punctuated_word, stop := w.stop }

/-- The fallback assembly loop over backend words, with the open
    current_segment as explicit state and the final flush
    (app_noauth.py lines 398-418). -/
def assembleWords : List Word → Option Segment → List Segment
  | [], none => []
  | [], some cur => [cur]
  | w :: rest, none => assembleWords rest (some (segFromWord w))
  | w :: rest, some cur =>
    if cur.speaker_id ≠ w.speaker then
      cur :: assembleWords rest (some (segFromWord w))
    else
      assembleWords rest (some (extendSeg cur w))

/-- Python " ".join: texts joined by single spaces, empties included. -/
def joinSpace : List (List Char) → List Char
  | [] => []
  | [t] => t
  | t :: rest => t ++ ' ' :: joinSpace rest

/-- End time of the last fragment of a nonempty fragment list. -/
def lastStop : Word → List Word → ℚ
  | w, [] => w.stop
  | _, v :: vs => lastStop v vs

/-- Is a text empty or whitespace-only? -/
def isBlank (t : List Char) : Bool :=
  t.all pyIsSpace

theorem extendSeg_speaker_id (cur : Segment) (w : Word) :
    (extendSeg cur w).speaker_id = cur.speaker_id := rfl

theorem extendSeg_speaker (cur : Segment) (w : Word) :
    (extendSeg cur w).speaker = cur.speaker := rfl

theorem extendSeg_start (cur : Segment) (w : Word) :
    (extendSeg cur w).start = cur.start := rfl

theorem extendSeg_confidence (cur : Segment) (w : Word) :
    (extendSeg cur w).confidence = cur.confidence := rfl

theorem assembleWords_same_speaker (ws : List Word) (cur : Segment)
    (h : ∀ v ∈ ws, v.speaker = cur.speaker_id) :
    assembleWords ws (some cur) = [ws.foldl extendSeg cur] := by
  induction ws generalizing cur with
  | nil => rfl
  | cons w rest ih =>
    have hw : ¬ cur.speaker_id ≠ w.speaker := by
      simp [h w (List.mem_cons_self w rest)]
    simp only [assembleWords, if_neg hw, List.foldl_cons]
    exact ih (extendSeg cur w) (fun v hv => by
      rw [extendSeg_speaker_id]
      exact h v (List.mem_cons_of_mem w hv))

theorem foldl_extendSeg_text (ws : List Word) (cur : Segment) :
    (ws.foldl extendSeg cur).text
      = cur.text ++ (ws.map (fun v => ' ' :: v.punctuated_word)).flatten := by
  induction ws generalizing cur with
  | nil => simp
  | cons w rest ih =>
    simp only [List.foldl_cons, ih, List.map_cons, List.flatten_cons, extendSeg,
      List.append_assoc, List.cons_append]

theorem foldl_extendSeg_stop (v : Word) (vs : List Word) (cur : Segment) :
    ((v :: vs).foldl extendSeg cur).stop = lastStop v vs := by
  induction vs generalizing cur v with
  | nil => rfl
  | cons u us ih =>
    simp only [List.foldl_cons] at ih ⊢
    exact ih u (extendSeg cur v)

theorem foldl_extendSeg_start (ws : List Word) (cur : Segment) :
    (ws.foldl extendSeg cur).start = cur.start := by
  induction ws generalizing cur with
  | nil => rfl
  | cons w rest ih => simp only [List.foldl_cons, ih, extendSeg_start]

theorem foldl_extendSeg_speaker (ws : List Word) (cur : Segment) :
    (ws.foldl extendSeg cur).speaker = cur.speaker := by
  induction ws generalizing cur with
  | nil => rfl
  | cons w rest ih => simp only [List.foldl_cons, ih, extendSeg_speaker]

theorem foldl_extendSeg_speaker_id (ws : List Word) (cur : Segment) :
    (ws.foldl extendSeg cur).speaker_id = cur.speaker_id := by
  induction ws generalizing cur with
  | nil => rfl
  | cons w rest ih => simp only [List.foldl_cons, ih, extendSeg_speaker_id]

theorem foldl_extendSeg_confidence (ws : List Word) (cur : Segment) :
    (ws.foldl extendSeg cur).confidence = cur.confidence := by
  induction ws generalizing cur with
  | nil => rfl
  | cons w rest ih => simp only [List.foldl_cons, ih, extendSeg_confidence]

theorem joinSpace_cons (t : List Char) (ts : List (List Char)) :
    joinSpace (t :: ts) = t ++ (ts.map (fun x => ' ' :: x)).flatten := by
  induction ts generalizing t with
  | nil => simp [joinSpace]
  | cons u us ih =>
    simp only [joinSpace, ih u, List.map_cons, List.flatten_cons,
      List.append_assoc, List.cons_append]

/-- Three words with the same speaker, the middle one with empty text
    (concrete input refuting the blank-dropping clause of C2). -/
def blankWords : List Word :=
  [⟨"a".data, 0, 0, 1, 1⟩, ⟨[], 0, 1, 2, 1⟩, ⟨"b".data, 0, 2, 3, 1⟩]

/-- C2 counterexample: on three same-speaker fragments whose middle text is
    empty, the assembled text is "a  b" (the empty fragment still contributes
    a joining space), not the space-join of the non-blank texts "a b"; and on
    the empty fragment sequence no segment at all is emitted rather than
    exactly one. -/
theorem assembler_blank_not_dropped :
    ¬ ((assembleWords blankWords none).map Segment.text
        = [joinSpace ((blankWords.map Word.punctuated_word).filter
            (fun t => !(isBlank t)))])
    ∧ assembleWords ([] : List Word) none = [] := by
  exact ⟨by decide, rfl⟩

/-- C2 (amended): for every nonempty fragment sequence with constant speaker
    label, the fallback assembly emits exactly one segment whose text is all
    fragment texts (blank ones included) joined by single spaces in arrival
    order, with start time from the first fragment, end time from the last
    fragment, and speaker and confidence seeded from the first fragment. -/
theorem assembler_single_speaker (w : Word) (ws : List Word)
    (h : ∀ v ∈ ws, v.speaker = w.speaker) :
    assembleWords (w :: ws) none =
      [{ text := joinSpace ((w :: ws).map Word.punctuated_word)
         speaker := spkLabel w.speaker
         speaker_id := w.speaker
         start := w.start
         stop := lastStop w ws
         confidence := w.confidence }] := by
  have hstep : assembleWords (w :: ws) none = assembleWords ws (some (segFromWord w)) := rfl
  rw [hstep, assembleWords_same_speaker ws (segFromWord w) (fun v hv => h v hv)]
  have htext := foldl_extendSeg_text ws (segFromWord w)
  have hstart := foldl_extendSeg_start ws (segFromWord w)
  have hspk := foldl_extendSeg_speaker ws (segFromWord w)
  have hspkid := foldl_extendSeg_speaker_id ws (segFromWord w)
  have hconf := foldl_extendSeg_confidence ws (segFromWord w)
  have hstop : (ws.foldl extendSeg (segFromWord w)).stop = lastStop w ws := by
    cases ws with
    | nil => rfl
    | cons v vs =>
      have := foldl_extendSeg_stop v vs (segFromWord w)
      simpa [lastStop] using this
  have : ws.foldl extendSeg (segFromWord w) =
      { text := joinSpace ((w :: ws).map Word.punctuated_word)
        speaker := spkLabel w.speaker
        speaker_id := w.speaker
        start := w.start
        stop := lastStop w ws
        confidence := w.confidence } := by
    apply Segment.ext
    · rw [htext, List.map_cons, joinSpace_cons, List.map_map]
      rfl
    · simpa [segFromWord] using hspk
    · simpa [segFromWord] using hspkid
    · simpa [segFromWord] using hstart
    · exact hstop
    · simpa [segFromWord] using hconf
  rw [this]

/-- Concrete first fragment for the C2 witness. -/
def c2Head : Word := ⟨"Sounds".data, 1, 5, 6, 1⟩

/-- Concrete remaining fragments for the C2 witness. -/
def c2Rest : List Word := [⟨"good.".data, 1, 6, 7, 1⟩]

/-- C2 witness: the amended single-speaker theorem applied at a concrete two
    fragment sequence with constant speaker 1. -/
theorem assembler_single_speaker_witness :
    (∀ v ∈ c2Rest, v.speaker = c2Head.speaker)
    ∧ assembleWords (c2Head :: c2Rest) none =
        [{ text := joinSpace ((c2Head :: c2Rest).map Word.punctuated_word)
           speaker := spkLabel c2Head.speaker
           speaker_id := c2Head.speaker
           start := c2Head.start
           stop := lastStop c2Head c2Rest
           confidence := c2Head.confidence }] :=
  ⟨by decide, assembler_single_speaker c2Head c2Rest (by decide)⟩

theorem assembleWords_some_split (w v : Word) (post : List Word)
    (h : v.speaker ≠ w.speaker) (ws : List Word) (cur : Segment) :
    assembleWords (ws ++ w :: v :: post) (some cur)
      = assembleWords (ws ++ [w]) (some cur) ++ assembleWords (v :: post) none := by
  induction ws generalizing cur with
  | nil =>
    simp only [List.nil_append]
    by_cases hw : cur.speaker_id = w.speaker
    · have hnw : ¬ cur.speaker_id ≠ w.speaker := by simp [hw]
      have hv : (extendSeg cur w).speaker_id ≠ v.speaker := by
        rw [extendSeg_speaker_id, hw]
        exact fun e => h e.symm
      simp only [assembleWords, if_neg hnw, if_pos hv]
      rfl
    · have hv : (segFromWord w).speaker_id ≠ v.speaker := by
        show w.speaker ≠ v.speaker
        exact fun e => h e.symm
      simp only [assembleWords, if_pos hw, if_pos hv, List.cons_append,
        List.nil_append]
  | cons u us ih =>
    simp only [List.cons_append]
    by_cases hu : cur.speaker_id = u.speaker
    · have hnu : ¬ cur.speaker_id ≠ u.speaker := by simp [hu]
      simp only [assembleWords, if_neg hnu]
      exact ih (extendSeg cur u)
    · simp only [assembleWords, if_pos hu]
      rw [ih (segFromWord u)]
      rfl

/-- C3: a speaker change between adjacent fragments always closes the open
    segment and starts a new one exactly at the changing fragment: the
    assembled output of any fragment list with a speaker change is the output
    for the prefix up to the change followed by the output for the suffix
    starting at the changing fragment, so no segment mixes text from two
    speaker labels and a segment's speaker is fixed at creation. -/
theorem assembler_speaker_boundary (pre : List Word) (w v : Word)
    (post : List Word) (h : v.speaker ≠ w.speaker) :
    assembleWords (pre ++ w :: v :: post) none
      = assembleWords (pre ++ [w]) none ++ assembleWords (v :: post) none := by
  cases pre with
  | nil =>
    have h1 : assembleWords (w :: v :: post) none
        = assembleWords (v :: post) (some (segFromWord w)) := rfl
    have hv : (segFromWord w).speaker_id ≠ v.speaker := by
      show w.speaker ≠ v.speaker
      exact fun e => h e.symm
    simp only [List.nil_append, h1, assembleWords, if_pos hv]
    rfl
  | cons p ps =>
    have h1 : assembleWords ((p :: ps) ++ w :: v :: post) none
        = assembleWords (ps ++ w :: v :: post) (some (segFromWord p)) := rfl
    have h2 : assembleWords ((p :: ps) ++ [w]) none
        = assembleWords (ps ++ [w]) (some (segFromWord p)) := rfl
    rw [h1, h2, assembleWords_some_split w v post h ps (segFromWord p)]

/-- Concrete prefix for the C3 witness. -/
def c3Pre : List Word := [⟨"Lets".data, 0, 0, 1, 1⟩]

/-- Concrete last same-speaker fragment for the C3 witness. -/
def c3W : Word := ⟨"meet".data, 0, 1, 2, 1⟩

/-- Concrete speaker-changing fragment for the C3 witness. -/
def c3V : Word := ⟨"Sure".data, 1, 2, 3, 1⟩

/-- C3 witness: the boundary theorem applied at a concrete fragment sequence
    whose third fragment changes speaker from 0 to 1. -/
theorem assembler_speaker_boundary_witness :
    c3V.speaker ≠ c3W.speaker
    ∧ assembleWords (c3Pre ++ c3W :: c3V :: []) none
        = assembleWords (c3Pre ++ [c3W]) none ++ assembleWords (c3V :: []) none :=
  ⟨by decide, assembler_speaker_boundary c3Pre c3W c3V [] (by decide)⟩

/-! Conversation creation with AI structuring — create_conversation_with_ai
    (app_noauth.py lines 69-185; railway_noauth.py is identical in control
    flow). The structuring capability get_transcript_structure is imported
    from utils/llm/conversation_processing.py, which is not part of the
    repository sources; it is modelled as an oracle argument whose outcome
    is `none` when the call raises. The in-repository stand-in
    standalone_ai.get_transcript_structure wraps its body the same way. -/

/-- One action item dict {description, completed}. -/
structure ActionItem where
  description : List Char
  completed : Bool
deriving DecidableEq

/-- One event of a structured result; start is carried as an already
    rendered isoformat string, duration in minutes. -/
structure Event where
  title : List Char
  description : List Char
  start : Option (List Char)
  duration : Option Int
deriving DecidableEq

/-- The Structured dataclass of standalone_ai.py (all fields defaulting to
    None, including the two lists). -/
structure Structured where
  title : Option (List Char)
  overview : Option (List Char)
  emoji : Option (List Char)
  category : Option (List Char)
  action_items : Option (List ActionItem)
  events : Option (List Event)
deriving DecidableEq

/-- The fixed fallback returned by the except branch of
    get_transcript_structure (standalone_ai.py lines 88-98). -/
def fallbackStructured : Structured :=
  { title := some "New Conversation".data
    overview := some "AI processing unavailable".data
    emoji := some "💬".data
    category := some "general".data
    action_items := some []
    events := some [] }

/-- Embedding of the try/except shell of get_transcript_structure
    (standalone_ai.py lines 49-98): the structuring attempt (the try body,
    standing for the external text-to-structure capability) is passed as its
    outcome, `none` meaning it raised; a raise is answered with the fixed
    fallback structure instead of propagating. -/
def get_transcript_structure (attempt : Option Structured) : Structured :=
  match attempt with
  | some s => s
  | none => fallbackStructured

/-- One incoming transcript segment dict; the endpoint only reads
    seg.get("text", ""), all other keys pass through unchanged. -/
structure InSegment where
  text : Option (List Char)
deriving DecidableEq

/-- The request body fields read by create_conversation_with_ai; a missing
    key is `none` (for the two list-valued keys the source default is the
    empty list, applied through getD below). -/
structure RequestData where
  title : Option (List Char)
  overview : Option (List Char)
  action_items : Option (List ActionItem)
  transcript_segments : List InSegment
deriving DecidableEq

/-- Python truthy-or on optional strings: `x or default` falls through on
    None and on the empty string. -/
def pyOrStr (v : Option (List Char)) (d : List Char) : List Char :=
  match v with
  | none => d
  | some s => if s.isEmpty then d else s

/-- Python " ".join over seg.get("text", ""), guarded by the truthiness of
    the segment list (app_noauth.py lines 72-78). -/
def transcriptText (segs : List InSegment) : List Char :=
  if segs.isEmpty then []
  else joinSpace (segs.map (fun s => s.text.getD []))

/-- The structured sub-dict stored inside a created conversation. -/
structure StructuredOut where
  title : List Char
  overview : List Char
  emoji : List Char
  category : List Char
  action_items : List ActionItem
  events : List Event
deriving DecidableEq

/-- One stored conversation dict (timestamp fields all carry the same
    request-time isoformat string plus "Z"). -/
structure Conv where
  id : List Char
  title : List Char
  overview : List Char
  emoji : List Char
  category : List Char
  created_at : List Char
  started_at : List Char
  finished_at : List Char
  structured : StructuredOut
  transcript_segments : List InSegment
  action_items : List ActionItem
deriving DecidableEq

/-- Endpoint outcome: a returned conversation, or a raised HTTPException. -/
inductive CreateResult
  | ok (conv : Conv)
  | httpError (status : Nat) (detail : List Char)
deriving DecidableEq

/-- The AI-path conversation dict (app_noauth.py lines 95-131);
    n is len(CONVERSATIONS_STORAGE). -/
def aiConv (structured : Structured) (data : RequestData)
    (segs : List InSegment) (n : Nat) (now : List Char) : Conv :=
  { id := "ai-conv-".data ++ (Nat.repr (n + 1)).data
    title := pyOrStr structured.title
      (data.title.getD "AI Generated Conversation".data)
    overview := pyOrStr structured.overview (data.overview.getD [])
    emoji := pyOrStr structured.emoji "🤖".data
    category := pyOrStr structured.category "general".data
    created_at := now ++ "Z".data
    started_at := now ++ "Z".data
    finished_at := now ++ "Z".data
    structured :=
      { title := pyOrStr structured.title (data.title.getD "AI Generated".data)
        overview := pyOrStr structured.overview []
        emoji := pyOrStr structured.emoji "🤖".data
        category := pyOrStr structured.category "general".data
        action_items := structured.action_items.getD []
        events := structured.events.getD [] }
    transcript_segments := segs
    action_items := structured.action_items.getD [] }

/-- The fallback conversation dict built when the structuring call raises
    (app_noauth.py lines 133-156). -/
def fallbackConv (data : RequestData) (segs : List InSegment) (n : Nat)
    (now : List Char) : Conv :=
  { id := "fallback-".data ++ (Nat.repr (n + 1)).data
    title := data.title.getD "New Conversation".data
    overview := data.overview.getD "AI processing unavailable".data
    emoji := "📝".data
    category := "user".data
    created_at := now ++ "Z".data
    started_at := now ++ "Z".data
    finished_at := now ++ "Z".data
    structured :=
      { title := data.title.getD "New Conversation".data
        overview := data.overview.getD []
        emoji := "📝".data
        category := "user".data
        action_items := data.action_items.getD []
        events := [] }
    transcript_segments := segs
    action_items := data.action_items.getD [] }

/-- The basic conversation dict built when no (non-whitespace) transcript was
    supplied (app_noauth.py lines 157-178). -/
def basicConv (data : RequestData) (segs : List InSegment) (n : Nat)
    (now : List Char) : Conv :=
  { id := "basic-".data ++ (Nat.repr (n + 1)).data
    title := data.title.getD "New Conversation".data
    overview := data.overview.getD []
    emoji := "💬".data
    category := "user".data
    created_at := now ++ "Z".data
    started_at := now ++ "Z".data
    finished_at := now ++ "Z".data
    structured :=
      { title := data.title.getD "New Conversation".data
        overview := data.overview.getD []
        emoji := "💬".data
        category := "user".data
        action_items := data.action_items.getD []
        events := [] }
    transcript_segments := segs
    action_items := data.action_items.getD [] }

/-- Embedding of create_conversation_with_ai (app_noauth.py lines 69-185):
    concatenate the segment texts; when the stripped text is truthy, first
    run the discard check (raising HTTP 400 on discard), then call the
    structuring oracle `ai` (whose outcome `none` models a raised exception,
    answered by the fallback conversation); otherwise build the basic
    conversation. Every successfully built conversation is appended to the
    storage list, which is threaded explicitly. -/
def create_conversation_with_ai (ai : List Char → Option Structured)
    (data : RequestData) (storage : List Conv) (now : List Char) :
    CreateResult × List Conv :=
  let segs := data.transcript_segments
  let t := transcriptText segs
  if (pyStrip t).isEmpty = false then
    if should_discard_conversation t then
      (CreateResult.httpError 400
        "Conversation content not meaningful enough to save".data, storage)
    else
      match ai t with
      | some structured =>
        let conv := aiConv structured data segs storage.length now
        (CreateResult.ok conv, storage ++ [conv])
      | none =>
        let conv := fallbackConv data segs storage.length now
        (CreateResult.ok conv, storage ++ [conv])
  else
    let conv := basicConv data segs storage.length now
    (CreateResult.ok conv, storage ++ [conv])

/-- Request data whose transcript is the denylisted "this is just a test". -/
def c4Data : RequestData :=
  { title := none
    overview := none
    action_items := none
    transcript_segments := [⟨some "this is just a test".data⟩] }

/-- C4 counterexample: on a discarded transcript the endpoint does not return
    a normal Discarded result — it raises HTTPException with status 400, an
    error signalled to the caller. -/
theorem discard_http_error_at_input :
    (create_conversation_with_ai (fun _ => some fallbackStructured)
        c4Data [] "t".data).1
      = CreateResult.httpError 400
          "Conversation content not meaningful enough to save".data := by
  decide

/-- C4 (amended): the endpoint applies the Discard Classifier before any
    structuring work, and when the classifier says discard it performs no
    further work — the structuring capability is never consulted (the outcome
    is the same for every oracle) and nothing is appended to storage — but the
    discard is signalled to the caller as an HTTP 400 error, not as a normal
    non-error result. -/
theorem discard_short_circuits (ai ai2 : List Char → Option Structured)
    (data : RequestData) (storage : List Conv) (now : List Char)
    (hne : (pyStrip (transcriptText data.transcript_segments)).isEmpty = false)
    (hdisc : should_discard_conversation
        (transcriptText data.transcript_segments) = true) :
    create_conversation_with_ai ai data storage now
      = (CreateResult.httpError 400
          "Conversation content not meaningful enough to save".data, storage)
    ∧ create_conversation_with_ai ai data storage now
      = create_conversation_with_ai ai2 data storage now := by
  unfold create_conversation_with_ai
  simp only [hne, hdisc, if_pos, if_true, reduceIte]
  trivial

/-- C4 witness: the short-circuit theorem applied to the concrete discarded
    request with two oracles that differ everywhere. -/
theorem discard_short_circuits_witness :
    (pyStrip (transcriptText c4Data.transcript_segments)).isEmpty = false
    ∧ should_discard_conversation (transcriptText c4Data.transcript_segments) = true
    ∧ (create_conversation_with_ai (fun _ => some fallbackStructured)
          c4Data [] "t".data
        = (CreateResult.httpError 400
            "Conversation content not meaningful enough to save".data, [])
      ∧ create_conversation_with_ai (fun _ => some fallbackStructured)
          c4Data [] "t".data
        = create_conversation_with_ai (fun _ => none) c4Data [] "t".data) :=
  ⟨by decide, by decide,
   discard_short_circuits (fun _ => some fallbackStructured) (fun _ => none)
     c4Data [] "t".data (by decide) (by decide)⟩

/-- C5: when the structuring capability raises, no failure propagates: the
    structuring step answers with the fixed minimal summary — placeholder
    title "New Conversation" and overview "AI processing unavailable", empty
    action items and empty events — and the endpoint still returns a
    successful conversation (built from request data only, marked by the
    "fallback-" id prefix and the placeholder overview) instead of an
    error. -/
theorem structuring_failure_fallback (data : RequestData) (storage : List Conv)
    (now : List Char)
    (hne : (pyStrip (transcriptText data.transcript_segments)).isEmpty = false)
    (hkeep : should_discard_conversation
        (transcriptText data.transcript_segments) = false) :
    get_transcript_structure none =
      { title := some "New Conversation".data
        overview := some "AI processing unavailable".data
        emoji := some "💬".data
        category := some "general".data
        action_items := some []
        events := some [] }
    ∧ create_conversation_with_ai (fun _ => none) data storage now
      = (CreateResult.ok
          (fallbackConv data data.transcript_segments storage.length now),
         storage ++ [fallbackConv data data.transcript_segments storage.length now]) := by
  constructor
  · rfl
  · unfold create_conversation_with_ai
    simp only [hne, hkeep, if_pos, if_true, Bool.false_eq_true, if_false,
      reduceIte]

/-- Request data with a meaningful transcript for the C5 and C10 witnesses. -/
def keepData : RequestData :=
  { title := none
    overview := none
    action_items := none
    transcript_segments :=
      [⟨some "We agreed to ship the report by Friday".data⟩] }

/-- C5 witness: the fallback theorem applied to a concrete kept transcript
    with the always-raising oracle. -/
theorem structuring_failure_fallback_witness :
    (pyStrip (transcriptText keepData.transcript_segments)).isEmpty = false
    ∧ should_discard_conversation (transcriptText keepData.transcript_segments)
        = false
    ∧ (get_transcript_structure none =
        { title := some "New Conversation".data
          overview := some "AI processing unavailable".data
          emoji := some "💬".data
          category := some "general".data
          action_items := some []
          events := some [] }
      ∧ create_conversation_with_ai (fun _ => none) keepData [] "t".data
        = (CreateResult.ok
            (fallbackConv keepData keepData.transcript_segments 0 "t".data),
           [] ++ [fallbackConv keepData keepData.transcript_segments 0 "t".data])) :=
  ⟨by decide, by decide,
   structuring_failure_fallback keepData [] "t".data (by decide) (by decide)⟩

/-- Data with no transcript segments at all, for the C10 witness. -/
def emptyData : RequestData :=
  { title := none
    overview := none
    action_items := none
    transcript_segments := [] }

/-- Data with the single short transcript text "hi", for the C10 witness. -/
def shortData : RequestData :=
  { title := none
    overview := none
    action_items := none
    transcript_segments := [⟨some "hi".data⟩] }

theorem length_dropWhile_le (p : Char → Bool) (l : List Char) :
    (l.dropWhile p).length ≤ l.length := by
  induction l with
  | nil => simp
  | cons c cs ih =>
    rw [List.dropWhile_cons]
    by_cases h : p c = true
    · rw [if_pos h]
      exact le_trans ih (by simp)
    · rw [if_neg h]

theorem pyStrip_length_le (s : List Char) : (pyStrip s).length ≤ s.length := by
  unfold pyStrip
  calc ((((s.dropWhile pyIsSpace).reverse).dropWhile pyIsSpace).reverse).length
      = (((s.dropWhile pyIsSpace).reverse).dropWhile pyIsSpace).length := by
        rw [List.length_reverse]
    _ ≤ ((s.dropWhile pyIsSpace).reverse).length :=
        length_dropWhile_le pyIsSpace _
    _ = (s.dropWhile pyIsSpace).length := by rw [List.length_reverse]
    _ ≤ s.length := length_dropWhile_le pyIsSpace s

/-- C10: when the concatenated transcript text is empty or whitespace-only
    (in particular when transcript_segments is empty), the discard check and
    structuring are skipped and a basic conversation is still appended to
    storage and returned as success, for every structuring oracle; yet every
    transcript whose text is non-whitespace and shorter than 10 characters is
    rejected with HTTP status 400 and nothing is stored. -/
theorem empty_transcript_saved_short_rejected
    (ai : List Char → Option Structured) (data : RequestData)
    (storage : List Conv) (now : List Char) :
    (pyStrip (transcriptText data.transcript_segments) = [] →
      create_conversation_with_ai ai data storage now
        = (CreateResult.ok
            (basicConv data data.transcript_segments storage.length now),
           storage ++ [basicConv data data.transcript_segments storage.length now]))
    ∧ (pyStrip (transcriptText data.transcript_segments) ≠ [] →
      (transcriptText data.transcript_segments).length < 10 →
      create_conversation_with_ai ai data storage now
        = (CreateResult.httpError 400
            "Conversation content not meaningful enough to save".data, storage)) := by
  constructor
  · intro h
    unfold create_conversation_with_ai
    simp [h]
  · intro hne hshort
    have hfalse : (pyStrip (transcriptText data.transcript_segments)).isEmpty
        = false := by
      cases hq : pyStrip (transcriptText data.transcript_segments) with
      | nil => exact absurd hq hne
      | cons a l => rfl
    have hlen : (pyStrip (transcriptText data.transcript_segments)).length < 10 :=
      lt_of_le_of_lt (pyStrip_length_le _) hshort
    have hdisc : should_discard_conversation
        (transcriptText data.transcript_segments) = true := by
      unfold should_discard_conversation
      rw [if_pos (Or.inr hlen)]
    unfold create_conversation_with_ai
    simp only [hfalse, hdisc, if_true, reduceIte]

/-- C10 witness: the theorem applied to a request with no segments (saved as a
    basic conversation) and a request with the 2-character transcript "hi"
    (rejected with status 400). -/
theorem empty_transcript_saved_short_rejected_witness :
    (pyStrip (transcriptText emptyData.transcript_segments) = []
      ∧ create_conversation_with_ai (fun _ => none) emptyData [] "t".data
        = (CreateResult.ok (basicConv emptyData [] 0 "t".data),
           [] ++ [basicConv emptyData [] 0 "t".data]))
    ∧ (pyStrip (transcriptText shortData.transcript_segments) ≠ []
      ∧ (transcriptText shortData.transcript_segments).length < 10
      ∧ create_conversation_with_ai (fun _ => none) shortData [] "t".data
        = (CreateResult.httpError 400
            "Conversation content not meaningful enough to save".data, [])) :=
  ⟨⟨by decide,
    (empty_transcript_saved_short_rejected (fun _ => none) emptyData [] "t".data).1
      (by decide)⟩,
   ⟨by decide, by decide,
    (empty_transcript_saved_short_rejected (fun _ => none) shortData [] "t".data).2
      (by decide) (by decide)⟩⟩

/-! The realtime transcription WebSocket — websocket_transcribe
    (app_noauth.py lines 222-343; railway_noauth.py lines 212-296 has the
    same loop and teardown shape). The async loop is embedded as a trace
    machine: the environment supplies the sequence of completed receive
    outcomes followed by the exception that ends the loop, and the embedding
    yields the events sent to the client plus the calls made on the speech
    adapter handle. The session is modelled from the point where the adapter
    has been opened. -/

/-- One completed outcome of the receive call inside the loop. The source
    has an except branch for asyncio.TimeoutError, kept here as timeoutErr;
    since the receive call is awaited with no timeout attached, this outcome
    never actually occurs in a run. -/
inductive Received
  | bytes (b : List Nat)
  | text (t : List Char)
  | timeoutErr
deriving DecidableEq

/-- Events the handler sends on the connection (segment events originate
    from the speech backend callback, outside this loop). -/
inductive OutEvent
  | conversation_started
  | heartbeat_ack
  | heartbeat
  | closeFrame (code : Nat)
deriving DecidableEq

/-- Calls made on the speech adapter handle. -/
inductive AdapterCall
  | send (b : List Nat)
  | finish
deriving DecidableEq

/-- How the session loop ends: client disconnect, or an internal fault. -/
inductive EndTrigger
  | disconnect
  | fault
deriving DecidableEq

/-- Effect of one loop iteration (app_noauth.py lines 296-324): audio bytes
    are forwarded to the adapter; the text frame "heartbeat" is answered
    with heartbeat_ack; any other text frame does nothing; the (dead)
    TimeoutError branch would send heartbeat. -/
def loopStep : Received → List OutEvent × List AdapterCall
  | Received.bytes b => ([], [AdapterCall.send b])
  | Received.text t =>
    if t = "heartbeat".data then ([OutEvent.heartbeat_ack], []) else ([], [])
  | Received.timeoutErr => ([OutEvent.heartbeat], [])

/-- The audio loop over the completed receive outcomes. -/
def loopRun : List Received → List OutEvent × List AdapterCall
  | [] => ([], [])
  | r :: rest =>
    let s := loopStep r
    let t := loopRun rest
    (s.1 ++ t.1, s.2 ++ t.2)

/-- Outcome of stt_socket.finish(): error when it raises. -/
def callFinish (finishRaises : Bool) : Except Unit Unit :=
  if finishRaises then Except.error () else Except.ok ()

/-- The except handlers of the session (app_noauth.py lines 326-343): on
    WebSocketDisconnect, call finish inside try/except-pass; on any other
    exception, close the socket with code 1011 and then call finish inside
    try/except-pass. Both branches of each match are identical because a
    raising finish is swallowed. -/
def teardown (finishRaises : Bool) : EndTrigger → List OutEvent × List AdapterCall
  | EndTrigger.disconnect =>
    match callFinish finishRaises with
    | Except.ok _ => ([], [AdapterCall.finish])
    | Except.error _ => ([], [AdapterCall.finish])
  | EndTrigger.fault =>
    match callFinish finishRaises with
    | Except.ok _ => ([OutEvent.closeFrame 1011], [AdapterCall.finish])
    | Except.error _ => ([OutEvent.closeFrame 1011], [AdapterCall.finish])

/-- Embedding of one full websocket_transcribe session after the adapter is
    open: the initial conversation_started event, the loop trace, then the
    teardown of whichever exception ended the loop. -/
def websocket_transcribe (events : List Received) (ending : EndTrigger)
    (finishRaises : Bool) : List OutEvent × List AdapterCall :=
  let l := loopRun events
  let t := teardown finishRaises ending
  (OutEvent.conversation_started :: (l.1 ++ t.1), l.2 ++ t.2)

theorem loopRun_no_finish (events : List Received) :
    (loopRun events).2.count AdapterCall.finish = 0 := by
  induction events with
  | nil => rfl
  | cons r rest ih =>
    simp only [loopRun, List.count_append, ih, Nat.add_zero]
    cases r with
    | bytes b => simp [loopStep]
    | text t =>
      by_cases ht : t = "heartbeat".data <;> simp [loopStep, ht]
    | timeoutErr => simp [loopStep]

theorem teardown_finish_once (fr : Bool) (e : EndTrigger) :
    (teardown fr e).2.count AdapterCall.finish = 1 := by
  cases fr <;> cases e <;> rfl

theorem teardown_indep (fr : Bool) (e : EndTrigger) :
    teardown fr e = teardown false e := by
  cases fr <;> cases e <;> rfl

/-- C6: for every session trace after the adapter was opened, whichever
    trigger ends the loop (client disconnect or internal fault), the handler
    calls the adapter finish exactly once, and a finish that raises changes
    nothing — the same trace is produced whether finish raises or not, so the
    failure never escapes the handler. -/
theorem finish_exactly_once (events : List Received) (ending : EndTrigger)
    (fr : Bool) :
    (websocket_transcribe events ending fr).2.count AdapterCall.finish = 1
    ∧ websocket_transcribe events ending fr
      = websocket_transcribe events ending (!fr) := by
  constructor
  · show ((loopRun events).2 ++ (teardown fr ending).2).count AdapterCall.finish = 1
    rw [List.count_append, loopRun_no_finish, teardown_finish_once]
  · show (OutEvent.conversation_started ::
        ((loopRun events).1 ++ (teardown fr ending).1),
        (loopRun events).2 ++ (teardown fr ending).2)
      = (OutEvent.conversation_started ::
        ((loopRun events).1 ++ (teardown (!fr) ending).1),
        (loopRun events).2 ++ (teardown (!fr) ending).2)
    rw [teardown_indep fr, teardown_indep (!fr)]

/-- C7: the idle-window heartbeat never happens. The receive call carries no
    timeout, so a window with no inbound frames completes no receive outcome
    and the except asyncio.TimeoutError branch that would send the heartbeat
    is unreachable: the trace of a session whose client never sends a frame
    contains zero unsolicited heartbeat events (the claim requires exactly
    one per idle window), only the initial conversation_started. -/
theorem idle_session_sends_no_heartbeat :
    (websocket_transcribe [] EndTrigger.disconnect false).1.count
        OutEvent.heartbeat = 0
    ∧ (websocket_transcribe [] EndTrigger.disconnect false).1
      = [OutEvent.conversation_started] := by
  decide

theorem loopRun_append (a b : List Received) :
    loopRun (a ++ b)
      = ((loopRun a).1 ++ (loopRun b).1, (loopRun a).2 ++ (loopRun b).2) := by
  induction a with
  | nil => simp [loopRun]
  | cons r rest ih =>
    simp only [List.cons_append, loopRun, List.append_eq, ih, List.append_assoc]

/-- C8: a text frame received at any point of the session produces exactly
    one heartbeat_ack when its text is exactly the heartbeat token and
    nothing at all otherwise, inserted at that point of the outbound event
    trace; in both cases the frame causes no adapter call and no other
    change — the adapter call trace equals the one of the same session
    without the text frame. -/
theorem text_frame_behavior (pre post : List Received) (t : List Char)
    (ending : EndTrigger) (fr : Bool) :
    (websocket_transcribe (pre ++ Received.text t :: post) ending fr).1
      = OutEvent.conversation_started ::
          ((loopRun pre).1
            ++ (if t = "heartbeat".data then [OutEvent.heartbeat_ack] else [])
            ++ ((loopRun post).1 ++ (teardown fr ending).1))
    ∧ (websocket_transcribe (pre ++ Received.text t :: post) ending fr).2
      = (websocket_transcribe (pre ++ post) ending fr).2 := by
  have hsplit : loopRun (pre ++ Received.text t :: post)
      = ((loopRun pre).1 ++ ((loopStep (Received.text t)).1 ++ (loopRun post).1),
         (loopRun pre).2 ++ ((loopStep (Received.text t)).2 ++ (loopRun post).2)) := by
    rw [loopRun_append pre (Received.text t :: post)]
    rfl
  have hsplit2 : loopRun (pre ++ post)
      = ((loopRun pre).1 ++ (loopRun post).1,
         (loopRun pre).2 ++ (loopRun post).2) := loopRun_append pre post
  constructor
  · show OutEvent.conversation_started ::
        ((loopRun (pre ++ Received.text t :: post)).1 ++ (teardown fr ending).1) = _
    rw [hsplit]
    by_cases ht : t = "heartbeat".data <;>
      simp [loopStep, ht, List.append_assoc]
  · show (loopRun (pre ++ Received.text t :: post)).2
        ++ (teardown fr ending).2
      = (loopRun (pre ++ post)).2 ++ (teardown fr ending).2
    rw [hsplit, hsplit2]
    by_cases ht : t = "heartbeat".data <;> simp [loopStep, ht]

end Taya
